import Mathlib

/-!
Verification development for the soliloquy monorepo build/release
orchestrator.  The Python sources under soliloquy/ops and soliloquy/phases
are shallowly embedded: TOML documents become an inductive value type,
filesystem, network and subprocess effects become explicit oracle records,
and every dict iteration becomes recursion over an association list in
insertion order.  String manipulation is modelled over the underlying
character lists with structural (fuel-based) recursion so that concrete
instances evaluate inside the kernel.
-/

namespace Soliloquy

/-! ## Python-style string primitives

Each helper mirrors the corresponding Python `str` method used by the
sources (`in`, `split`, `endswith`, `startswith`, `replace`, `lower`).
They are written by structural recursion over `List Char` (with an
explicit fuel argument where the recursion consumes a variable-length
pattern) so that they reduce definitionally. -/

/-- Test whether the first list is a prefix of the second (Boolean). -/
def isPrefixList : List Char → List Char → Bool
  | [], _ => true
  | _ :: _, [] => false
  | a :: as, b :: bs => a == b && isPrefixList as bs

/-- Python `sub in s` on character lists: some suffix of `s` starts with `sub`. -/
def containsSubList (sub : List Char) : List Char → Bool
  | [] => isPrefixList sub []
  | c :: cs => isPrefixList sub (c :: cs) || containsSubList sub cs

/-- Remainder of the list after the first occurrence of `sep`, if any. -/
def dropFirstOcc (sep : List Char) : List Char → Option (List Char)
  | [] => if sep.isEmpty then some [] else none
  | c :: cs =>
    if isPrefixList sep (c :: cs) then some (List.drop sep.length (c :: cs))
    else dropFirstOcc sep cs

/-- Remainder after the last occurrence of `sep` (the whole list when `sep`
is absent); fuel bounds the number of occurrences scanned. -/
def afterLastFuel (sep : List Char) : Nat → List Char → List Char
  | 0, s => s
  | n + 1, s =>
    match dropFirstOcc sep s with
    | none => s
    | some rest => afterLastFuel sep n rest

/-- Python `s.split(sep)` on character lists, driven by fuel. -/
def splitOnFuel (sep : List Char) : Nat → List Char → List Char → List (List Char)
  | 0, rest, acc => [acc.reverse ++ rest]
  | _ + 1, [], acc => [acc.reverse]
  | n + 1, c :: cs, acc =>
    if isPrefixList sep (c :: cs) then
      acc.reverse :: splitOnFuel sep n (List.drop (sep.length - 1) cs) []
    else
      splitOnFuel sep n cs (c :: acc)

/-- Python `s.replace(pat, rep)` on character lists, driven by fuel. -/
def replaceFuel (pat rep : List Char) : Nat → List Char → List Char
  | 0, s => s
  | _ + 1, [] => []
  | n + 1, c :: cs =>
    if isPrefixList pat (c :: cs) then
      rep ++ replaceFuel pat rep n (List.drop (pat.length - 1) cs)
    else
      c :: replaceFuel pat rep n cs

/-- Python `sub in s`. -/
def pyContains (s sub : String) : Bool :=
  containsSubList sub.data s.data

/-- Python `s.split(sep)[-1]`. -/
def pySplitLast (s sep : String) : String :=
  ⟨afterLastFuel sep.data (s.data.length + 1) s.data⟩

/-- Python `s.split(sep)`. -/
def pySplit (s sep : String) : List String :=
  (splitOnFuel sep.data (s.data.length + 1) s.data []).map (⟨·⟩)

/-- Python `s.endswith(suffix)`. -/
def pyEndsWith (s suffix : String) : Bool :=
  isPrefixList suffix.data.reverse s.data.reverse

/-- Python `s.startswith(p)`. -/
def pyStartsWith (s p : String) : Bool :=
  isPrefixList p.data s.data

/-- Python `s[:-n]`. -/
def pyDropRight (s : String) (n : Nat) : String :=
  ⟨s.data.take (s.data.length - n)⟩

/-- Python `s.replace(pat, rep)` (for a non-empty pattern). -/
def pyReplace (s pat rep : String) : String :=
  ⟨replaceFuel pat.data rep.data (s.data.length + 1) s.data⟩

/-- Python `s.lower()` (ASCII, which covers the literals the sources compare). -/
def pyLower (s : String) : String :=
  ⟨s.data.map Char.toLower⟩

/-- Model of `os.path.join(a, b)` for POSIX paths. -/
def joinPath (a b : String) : String :=
  if a == "" then b
  else if pyStartsWith b "/" then b
  else if pyEndsWith a "/" then a ++ b
  else a ++ "/" ++ b

/-- Model of `os.path.join(base, *parts)`. -/
def joinParts (base : String) (parts : List String) : String :=
  parts.foldl joinPath base

/-- Model of `os.path.dirname` for POSIX paths: everything before the last
slash, or the empty string when no slash occurs. -/
def dirname (s : String) : String :=
  match dropFirstOcc "/".data s.data.reverse with
  | some rest => ⟨rest.reverse⟩
  | none => ""

/-! ## TOML document model

A structure-preserving document is modelled as a tree of values; tables
are association lists in insertion order, exactly the order tomlkit and
Python dicts iterate in.  Serialization (`tomlkit.dumps`) is the identity
on this model: tomlkit round-trips untouched structure byte for byte, so
document equality in the model corresponds to byte-identical output. -/

inductive Toml where
  | str : String → Toml
  | bool : Bool → Toml
  | int : Int → Toml
  | table : List (String × Toml) → Toml
  | arr : List Toml → Toml

/-- Python truthiness of a TOML value (`bool(v)`). -/
def truthy : Toml → Bool
  | .str s => s != ""
  | .bool b => b
  | .int n => n != 0
  | .table t => !t.isEmpty
  | .arr l => !l.isEmpty

/-- View an optional value as a table, defaulting to the empty table
(`x.get(key, {})` style access). -/
def tableD : Option Toml → List (String × Toml)
  | some (.table t) => t
  | _ => []

/-- Python dict assignment `t[k] = v`: replace in place, else append. -/
def tableSet (t : List (String × Toml)) (k : String) (v : Toml) : List (String × Toml) :=
  if t.any (·.1 == k) then t.map (fun p => if p.1 == k then (k, v) else p)
  else t ++ [(k, v)]

/-- String value of a table field with a default; mirrors
`details.get(key, default)` for the string-typed fields of the manifest
schema (a non-string value in one of these fields makes the Python source
raise further on and is outside the schema; the model returns the default
there). -/
def strFieldD (dt : List (String × Toml)) (k d : String) : String :=
  match List.lookup k dt with
  | some (.str s) => s
  | _ => d

/-- Navigation `doc.get("tool", \x7b\x7d).get("poetry")` restricted to
well-formed documents: returns the `[tool.poetry]` table when both levels
are tables, and `none` otherwise (a non-table value at either level makes
the Python source raise `AttributeError`, outside the manifest schema). -/
def poetryTable : Toml → Option (List (String × Toml))
  | .table dt =>
    match List.lookup "tool" dt with
    | some (.table tt) =>
      match List.lookup "poetry" tt with
      | some (.table pt) => some pt
      | _ => none
    | _ => none
  | _ => none

/-- Replace the `[tool.poetry]` table of a document (in-place mutation of
the tomlkit tree in the source). -/
def setPoetry (doc : Toml) (newPoetry : List (String × Toml)) : Toml :=
  match doc with
  | .table dt =>
    .table (tableSet dt "tool"
      (match List.lookup "tool" dt with
       | some (.table tt) => .table (tableSet tt "poetry" (.table newPoetry))
       | _ => .table [("poetry", .table newPoetry)]))
  | d => d

/-- Dependencies table of a manifest document
(`doc["tool"]["poetry"]["dependencies"]`, empty when absent). -/
def depsTableOf (doc : Toml) : List (String × Toml) :=
  match poetryTable doc with
  | some pt => tableD (List.lookup "dependencies" pt)
  | none => []

/-! ## Version bumper (soliloquy/ops/version_ops.py)

The source parses the current version with `packaging.version.Version` and
then computes only from `ver.release` (unpacked into exactly three
components) and `ver.dev`.  `PyVersion` models a parsed version whose
release has three components; the claims quantify over exactly those
version strings. -/

structure PyVersion where
  major : Nat
  minor : Nat
  patch : Nat
  dev : Option Nat

/-- Embedding of `bump_version` after the `Version(current_version)` parse
(lines 89-121 of soliloquy/ops/version_ops.py); `ValueError` raises become
`Except.error` with the message of the source. -/
def bump_version (ver : PyVersion) (bump_type : String) : Except String String :=
  let is_dev := ver.dev.isSome
  if bump_type == "finalize" then
    if is_dev then
      .ok (toString ver.major ++ "." ++ toString ver.minor ++ "." ++ toString ver.patch)
    else
      .error "Current version is already final; nothing to finalize."
  else if bump_type == "major" then
    .ok (toString (ver.major + 1) ++ ".0.0.dev1")
  else if bump_type == "minor" then
    .ok (toString ver.major ++ "." ++ toString (ver.minor + 1) ++ ".0.dev1")
  else if bump_type == "patch" then
    match ver.dev with
    | some d =>
      .ok (toString ver.major ++ "." ++ toString ver.minor ++ "." ++ toString ver.patch
            ++ ".dev" ++ toString (d + 1))
    | none =>
      .ok (toString ver.major ++ "." ++ toString ver.minor ++ "." ++ toString (ver.patch + 1)
            ++ ".dev1")
  else
    .error "bump_type must be one of 'major', 'minor', 'patch', 'finalize'."

/-! ## Aggregator classifier

Both soliloquy/ops/test_ops.py (lines 200-217) and
soliloquy/ops/build_ops.py (lines 62-83) define `_check_if_aggregator`
with identical logic; both are embedded.  tomlkit hands booleans back as
plain Python `bool`, so the final `pkg_mode is False` identity test is
true exactly for the boolean `False`; any non-bool, non-string value is
never identical to `False`. -/

/-- Embedding of `_check_if_aggregator` from soliloquy/ops/test_ops.py,
applied to the parsed document. -/
def check_if_aggregator_test (doc : Toml) : Bool × String :=
  let poetry := tableD (List.lookup "poetry" (tableD (List.lookup "tool" (tableD (some doc)))))
  let pkgName := strFieldD poetry "name" "unknown"
  let isAgg :=
    match List.lookup "package-mode" poetry with
    | none => false
    | some (.bool b) => b == false
    | some (.str s) => pyLower s == "false"
    | some _ => false
  (isAgg, pkgName)

/-- Embedding of `_check_if_aggregator` from soliloquy/ops/build_ops.py
(same body as the test_ops copy). -/
def check_if_aggregator_build (doc : Toml) : Bool × String :=
  let poetry := tableD (List.lookup "poetry" (tableD (List.lookup "tool" (tableD (some doc)))))
  let pkgName := strFieldD poetry "name" "unknown"
  let isAgg :=
    match List.lookup "package-mode" poetry with
    | none => false
    | some (.bool b) => b == false
    | some (.str s) => pyLower s == "false"
    | some _ => false
  (isAgg, pkgName)

/-! ## Remote version resolver (soliloquy/ops/remote_ops.py)

Network and filesystem effects are oracles: `httpGet` returns the body of
a successful GET (`none` models any `requests` exception or non-2xx status
raised by `raise_for_status`), `parseToml` is `tomlkit.parse` (`none`
models a parse exception), `isFile`/`readToml`/`writeOk` model
`os.path.isfile`, reading plus parsing a local file, and the success of a
write.  Serialized output (`dumps`) is the document itself in the
structure-preserving model. -/

structure NetEnv where
  httpGet : String → Option String
  parseToml : String → Option Toml

structure FileEnv where
  isFile : String → Bool
  readToml : String → Option Toml
  writeOk : String → Bool

/-- Model of `urllib.parse.urljoin` for the shapes produced by the fetch
routine (base ends in a slash; the relative part is a plain path). -/
def urljoin (base rel : String) : String :=
  if pyStartsWith rel "http://" || pyStartsWith rel "https://" then rel
  else if pyStartsWith rel "/" then
    (pySplitLast base "://") ++ rel
  else base ++ rel

/-- Embedding of `fetch_remote_pyproject_version`
(soliloquy/ops/remote_ops.py lines 14-62).  A remote document whose
`version` field is falsy or missing yields `none`, as does every fetch or
parse failure; a non-string truthy `version` lies outside the manifest
schema and is modelled as its string payload only when it is a string. -/
def fetch_remote_pyproject_version (net : NetEnv) (git_url : String)
    (branch : String := "main") (subdirectory : String := "") : Option String :=
  if !pyContains git_url "github.com" then none
  else
    let repo_path := pySplitLast git_url "github.com/"
    let repo_path := if pyEndsWith repo_path ".git" then pyDropRight repo_path 4 else repo_path
    let base_url := "https://raw.githubusercontent.com/" ++ repo_path ++ "/" ++ branch ++ "/"
    let subdirectory :=
      if subdirectory != "" && !pyEndsWith subdirectory "/" then subdirectory ++ "/"
      else subdirectory
    let pyproject_url := urljoin base_url (subdirectory ++ "pyproject.toml")
    match net.httpGet pyproject_url with
    | none => none
    | some text =>
      match net.parseToml text with
      | none => none
      | some doc =>
        match List.lookup "version"
            (tableD (List.lookup "poetry" (tableD (List.lookup "tool" (tableD (some doc)))))) with
        | some (.str v) => if v == "" then none else some v
        | _ => none

/-- Membership test `dep_name in extra_deps` over every extras array
(`dep_in_extras` in soliloquy/ops/remote_ops.py lines 98-103). -/
def dep_in_extras (extras : List (String × Toml)) (depName : String) : Bool :=
  extras.any (fun p =>
    match p.2 with
    | .arr l => l.any (fun e => match e with | .str s => s == depName | _ => false)
    | _ => false)

/-- Body of the per-dependency loop of `update_pyproject_with_versions`
(soliloquy/ops/remote_ops.py lines 108-147) for one entry: the updated
value of that dependency and whether it was rewritten.  Entries that are
not tables with a `git` key are skipped; a failed or falsy remote version
leaves the entry untouched; a fetched version replaces the entry with an
inline table carrying the caret constraint, the optional flag only when
originally optional, and the original git, branch and subdirectory keys.
Entries whose `git` value is not a string make the Python source raise
inside the fetch and are left unchanged here. -/
def processEntry (net : NetEnv) (extras : List (String × Toml))
    (depName : String) (details : Toml) : Toml × Bool :=
  match details with
  | .table dt =>
    match List.lookup "git" dt with
    | some (.str git_url) =>
      let branch := strFieldD dt "branch" "main"
      let subdir := strFieldD dt "subdirectory" ""
      let originallyOptional :=
        truthy ((List.lookup "optional" dt).getD (.bool false)) || dep_in_extras extras depName
      match fetch_remote_pyproject_version net git_url branch subdir with
      | none => (details, false)
      | some remoteVer =>
        if remoteVer == "" then (details, false)
        else
          let newInline : List (String × Toml) :=
            [("version", .str ("^" ++ remoteVer))]
            ++ (if originallyOptional then [("optional", .bool true)] else [])
            ++ [("git", .str git_url)]
            ++ (match List.lookup "branch" dt with
                | some b => [("branch", b)] | none => [])
            ++ (match List.lookup "subdirectory" dt with
                | some s => [("subdirectory", s)] | none => [])
          (.table newInline, true)
    | some _ => (details, false)
    | none => (details, false)
  | _ => (details, false)

/-- Per-dependency loop of `update_pyproject_with_versions`
(soliloquy/ops/remote_ops.py lines 108-147), as recursion over the
dependency items in insertion order: applies `processEntry` to each entry
and accumulates the `updated_any` flag. -/
def processDeps (net : NetEnv) (extras : List (String × Toml)) :
    List (String × Toml) → List (String × Toml) × Bool
  | [] => ([], false)
  | (depName, details) :: rest =>
    let (rest', restAny) := processDeps net extras rest
    let (newDetails, updated) := processEntry net extras depName details
    ((depName, newDetails) :: rest', updated || restAny)

/-- Filter one extras array to the dependency names still present
(`[dep for dep in extra_list if dep in dependencies]`). -/
def filterExtra (deps : List (String × Toml)) : Toml → Toml
  | .arr l =>
    .arr (l.filter (fun e =>
      match e with
      | .str s => deps.any (·.1 == s)
      | _ => false))
  | v => v

/-- Embedding of `update_pyproject_with_versions`
(soliloquy/ops/remote_ops.py lines 65-162).  Returns the document that the
source would serialize with `dumps`, or `none` where the source returns
`None` (missing file, unreadable or unparsable file, missing or empty
`[tool.poetry]`). -/
def update_pyproject_with_versions (env : FileEnv) (net : NetEnv) (file_path : String) :
    Option Toml :=
  if !env.isFile file_path then none
  else
    match env.readToml file_path with
    | none => none
    | some doc =>
      match poetryTable doc with
      | none => none
      | some tp =>
        if tp.isEmpty then none
        else
          let dependencies := tableD (List.lookup "dependencies" tp)
          let extras := tableD (List.lookup "extras" tp)
          let hadExtras := !extras.isEmpty
          let (newDeps, updatedAny) := processDeps net extras dependencies
          if !updatedAny then some doc
          else
            let tp1 :=
              if hadExtras then
                tableSet tp "extras"
                  (.table (extras.map (fun p => (p.1, filterExtra newDeps p.2))))
              else tp
            let tp2 := tableSet tp1 "dependencies" (.table newDeps)
            some (setPoetry doc tp2)

/-- Embedding of `update_and_write_pyproject`
(soliloquy/ops/remote_ops.py lines 165-185): `False` when the update
returned `None` or the write failed, `True` otherwise. -/
def update_and_write_pyproject (env : FileEnv) (net : NetEnv)
    (input_file_path : String) (output_file_path : Option String := none) : Bool :=
  match update_pyproject_with_versions env net input_file_path with
  | none => false
  | some _ =>
    let target := output_file_path.getD input_file_path
    env.writeOk target

/-- Per-file loop of `remote_update_bulk` (soliloquy/ops/remote_ops.py
lines 228-235): folds the boolean `overall_success` over the discovered
files and records, as the observable effect of the `(i/N)` progress
prints, the list of files actually processed. -/
def bulkLoop (env : FileEnv) (net : NetEnv) (outPath : Option String) (single : Bool) :
    List String → Bool × List String
  | [] => (true, [])
  | p :: rest =>
    let success := update_and_write_pyproject env net p (if single then outPath else none)
    let (restOk, restLog) := bulkLoop env net outPath single rest
    (success && restOk, p :: restLog)

/-- Embedding of `remote_update_bulk` (soliloquy/ops/remote_ops.py lines
188-242).  `findResult` is the outcome of `find_pyproject_files`.  The
source returns a bare boolean; the second component is the processing log
(which files the loop visited, in order). -/
def remote_update_bulk (env : FileEnv) (net : NetEnv)
    (findResult : Except String (List String)) (output : Option String := none) :
    Bool × List String :=
  match findResult with
  | .error _ => (false, [])
  | .ok pyprojects =>
    if pyprojects.isEmpty then (true, [])
    else
      let outPath := if output.isSome && pyprojects.length > 1 then none else output
      bulkLoop env net outPath (pyprojects.length == 1) pyprojects

/-! ## Test pipeline (soliloquy/ops/test_ops.py)

Oracles: `fs` parses the manifest at a path (discovery guarantees the file
exists; a parse failure aborts the process in `extract_*` and is outside
the modelled flows), `dirExists`/`fileExists` are `os.path.isdir` and
`os.path.isfile`, `pytestRc` is the exit code of the pytest subprocess run
in a directory, `cloneRc` the exit code of `git clone` for a given
(url, branch), and `tmpRoot` the directory `tempfile.mkdtemp` produced. -/

structure TestResult where
  success : Bool
  returncode : Int
  directory : String

structure TestEnv where
  fs : String → Toml
  dirExists : String → Bool
  fileExists : String → Bool
  pytestRc : String → Int
  cloneRc : String → String → Int
  tmpRoot : String

/-- Embedding of `run_pytests` (soliloquy/ops/test_ops.py lines 20-56). -/
def run_pytests (env : TestEnv) (test_directory : String) : TestResult :=
  let rc := env.pytestRc test_directory
  { success := rc == 0, returncode := rc, directory := test_directory }

/-- Embedding of `extract_path_dependencies`
(soliloquy/ops/pyproject_ops.py lines 13-26): the `path` values of the
dependency entries that are tables carrying a `path` key. -/
def extract_path_dependencies (doc : Toml) : List String :=
  (depsTableOf doc).filterMap (fun p =>
    match p.2 with
    | .table dt =>
      match List.lookup "path" dt with
      | some (.str s) => some s
      | _ => none
    | _ => none)

/-- Embedding of `extract_git_dependencies`
(soliloquy/ops/pyproject_ops.py lines 28-53): the dependency entries that
are tables carrying a `git` key, keyed by name in insertion order. -/
def extract_git_dependencies (doc : Toml) : List (String × Toml) :=
  (depsTableOf doc).filter (fun p =>
    match p.2 with
    | .table dt => (List.lookup "git" dt).isSome
    | _ => false)

/-- Grouping key of a Git dependency configuration
(`(config.get("git"), config.get("branch", "main"))`). -/
def gitDepKey (cfg : Toml) : String × String :=
  match cfg with
  | .table dt => (strFieldD dt "git" "", strFieldD dt "branch" "main")
  | _ => ("", "main")

/-- Subdirectory of a Git dependency configuration
(`config.get("subdirectory", ".")`). -/
def gitDepSub (cfg : Toml) : String :=
  match cfg with
  | .table dt => strFieldD dt "subdirectory" "."
  | _ => "."

/-- Keys of the `defaultdict` grouping in `_test_git_deps`
(soliloquy/ops/test_ops.py lines 240-246), in first-occurrence order. -/
def groupKeys (gitDeps : List (String × Toml)) : List (String × String) :=
  gitDeps.foldl
    (fun acc d => if acc.contains (gitDepKey d.2) then acc else acc ++ [gitDepKey d.2])
    []

/-- Members of one group, as the `(dep_name, subdir)` pairs appended for a
given `(git_url, branch)` key. -/
def groupMembers (gitDeps : List (String × Toml)) (k : String × String) :
    List (String × String) :=
  (gitDeps.filter (fun d => gitDepKey d.2 == k)).map (fun d => (d.1, gitDepSub d.2))

/-- Inner loop of `_test_git_deps` over the subdirectories of one clone
(soliloquy/ops/test_ops.py lines 277-294): per-member pass flag and the
test results of the members that were actually run. -/
def testMembers (env : TestEnv) (cloneDir : String) :
    List (String × String) → Bool × List TestResult
  | [] => (true, [])
  | (_, subdir) :: rest =>
    let testPath := joinParts cloneDir (pySplit subdir "/")
    let pyprojFile := joinPath testPath "pyproject.toml"
    let (restOk, restDs) := testMembers env cloneDir rest
    if !env.dirExists testPath then (false, restDs)
    else if !env.fileExists pyprojFile then (false, restDs)
    else
      let r := run_pytests env testPath
      (r.success && restOk, r :: restDs)

/-- Outer loop of `_test_git_deps` over the clone groups
(soliloquy/ops/test_ops.py lines 258-294).  The third component records
each `git clone` invocation as `(url, branch, destination)`. -/
def testGitGroups (env : TestEnv) (gitDeps : List (String × Toml)) (buildRoot : String) :
    List (String × String) → Bool × List TestResult × List (String × String × String)
  | [] => (true, [], [])
  | (gitUrl, branch) :: restKeys =>
    let cloneDir := joinPath buildRoot (pyReplace branch "/" "-" ++ "_clone")
    let (restOk, restDs, restCalls) := testGitGroups env gitDeps buildRoot restKeys
    if env.cloneRc gitUrl branch != 0 then
      (false, restDs, (gitUrl, branch, cloneDir) :: restCalls)
    else
      let (mOk, mDs) := testMembers env cloneDir (groupMembers gitDeps (gitUrl, branch))
      (mOk && restOk, mDs ++ restDs, (gitUrl, branch, cloneDir) :: restCalls)

structure GitTestOut where
  allPassed : Bool
  details : List TestResult
  cloneCalls : List (String × String × String)
  tempDir : Option String

/-- Embedding of `_test_git_deps` (soliloquy/ops/test_ops.py lines
223-301).  When `cleanup` is set the temporary root is removed and `None`
is returned for it, mirroring the `finally` block. -/
def test_git_deps (env : TestEnv) (gitDeps : List (String × Toml)) (cleanup : Bool) :
    GitTestOut :=
  let keys := groupKeys gitDeps
  if keys.isEmpty then { allPassed := true, details := [], cloneCalls := [], tempDir := none }
  else
    let (ok, ds, calls) := testGitGroups env gitDeps env.tmpRoot keys
    { allPassed := ok, details := ds, cloneCalls := calls,
      tempDir := if cleanup then none else some env.tmpRoot }

/-- Loop over the local path dependencies of the each-mode branches
(soliloquy/ops/test_ops.py lines 143-152 and 174-183). -/
def testPathDeps (env : TestEnv) (baseDir : String) :
    List String → Bool × List TestResult
  | [] => (true, [])
  | rel :: rest =>
    let subpkg := joinPath baseDir rel
    let (restOk, restDs) := testPathDeps env baseDir rest
    if !env.dirExists subpkg then (false, restDs)
    else
      let r := run_pytests env subpkg
      (r.success && restOk, r :: restDs)

structure RunResult where
  success : Bool
  details : List TestResult
  gitTempDir : Option String

/-- Aggregator branch of each-mode (soliloquy/ops/test_ops.py lines
136-165): test the path dependencies of the primary manifest, then its
Git dependencies. -/
def eachAggregatorBranch (env : TestEnv) (primary : String) (cleanup : Bool) : RunResult :=
  let deps := extract_path_dependencies (env.fs primary)
  let baseDir := dirname primary
  let (pathOk, pathDs) := testPathDeps env baseDir deps
  let gitDeps := extract_git_dependencies (env.fs primary)
  if !gitDeps.isEmpty then
    let g := test_git_deps env gitDeps cleanup
    { success := pathOk && g.allPassed, details := pathDs ++ g.details,
      gitTempDir := g.tempDir }
  else
    { success := pathOk, details := pathDs, gitTempDir := none }

/-- Non-aggregator branch of each-mode (soliloquy/ops/test_ops.py lines
167-196): despite the differing log message, the body performs the same
expansion as the aggregator branch. -/
def eachNonAggregatorBranch (env : TestEnv) (primary : String) (cleanup : Bool) : RunResult :=
  let deps := extract_path_dependencies (env.fs primary)
  let baseDir := dirname primary
  let (pathOk, pathDs) := testPathDeps env baseDir deps
  let gitDeps := extract_git_dependencies (env.fs primary)
  if !gitDeps.isEmpty then
    let g := test_git_deps env gitDeps cleanup
    { success := pathOk && g.allPassed, details := pathDs ++ g.details,
      gitTempDir := g.tempDir }
  else
    { success := pathOk, details := pathDs, gitTempDir := none }

/-- Embedding of `run_tests_with_mode` (soliloquy/ops/test_ops.py lines
59-197).  `findResult` is the outcome of `find_pyproject_files`. -/
def run_tests_with_mode (env : TestEnv) (findResult : Except String (List String))
    (directory : Option String) (mode : String) (cleanup : Bool) : RunResult :=
  if mode != "single" && mode != "monorepo" && mode != "each" then
    { success := false, details := [], gitTempDir := none }
  else
    match findResult with
    | .error _ => { success := false, details := [], gitTempDir := none }
    | .ok pyprojects =>
      match pyprojects with
      | [] =>
        let r := run_pytests env (directory.getD ".")
        { success := r.success, details := [r], gitTempDir := none }
      | primary :: _ =>
        let aggregator := (check_if_aggregator_test (env.fs primary)).1
        if mode == "single" then
          let r := run_pytests env (directory.getD (dirname primary))
          { success := r.success, details := [r], gitTempDir := none }
        else if mode == "monorepo" then
          let r := run_pytests env (directory.getD (dirname primary))
          { success := r.success, details := [r], gitTempDir := none }
        else if aggregator then
          eachAggregatorBranch env primary cleanup
        else
          eachNonAggregatorBranch env primary cleanup

/-! ## Release phase, each mode (soliloquy/phases/release.py lines 96-177)

Oracles: `abspath` is `os.path.abspath`, `buildRc`/`publishRc` are the
exit codes of `poetry build` and `poetry publish` in a directory, and `fs`
parses a manifest path for the aggregator check.  `remote_update_bulk`
returns a plain boolean (see its embedding above); the source immediately
evaluates `ru_result["overall_success"]` on it, which raises `TypeError`
(a boolean is not subscriptable).  The embedding records that unhandled
exception as a `crashed` outcome. -/

structure RelEnv where
  abspath : String → String
  buildRc : String → Int
  publishRc : String → Int
  fs : String → Toml

structure ReleaseEachOut where
  crashed : Bool
  exitCode : Option Nat
  buildAttempts : List String
  publishAttempts : List String
  overallPublishSuccess : Bool

/-- Build-and-publish loop of the each-mode release
(soliloquy/phases/release.py lines 135-171): accumulates the directories
in which a build was attempted, those in which a publish was attempted,
and the overall flag. -/
def publishLoop (env : RelEnv) (isAgg : Bool) (aggDir : String) :
    List String → List String × List String × Bool
  | [] => ([], [], true)
  | d :: rest =>
    let (restB, restP, restOk) := publishLoop env isAgg aggDir rest
    if isAgg && env.abspath d == aggDir then (restB, restP, restOk)
    else if env.buildRc d != 0 then (d :: restB, restP, false)
    else if env.publishRc d != 0 then (d :: restB, d :: restP, false)
    else (d :: restB, d :: restP, restOk)

/-- Embedding of the each-mode portion of `run_release`
(soliloquy/phases/release.py lines 96-177).  `details` and `gitTempDir`
come from the validate stage; `pyprojects` is the discovery result used
for the aggregator check. -/
def run_release_each (env : RelEnv) (details : List TestResult)
    (gitTempDir : Option String) (pyprojects : List String) : ReleaseEachOut :=
  if details.isEmpty then
    { crashed := false, exitCode := some 1, buildAttempts := [],
      publishAttempts := [], overallPublishSuccess := true }
  else
    let passedDirs := (details.filter (·.success)).map (·.directory)
    if passedDirs.isEmpty then
      { crashed := false, exitCode := some 1, buildAttempts := [],
        publishAttempts := [], overallPublishSuccess := true }
    else
      let aggregatorPyproj := pyprojects.head?
      let isAgg :=
        match aggregatorPyproj with
        | some p => (check_if_aggregator_test (env.fs p)).1
        | none => false
      let aggDir := dirname (aggregatorPyproj.getD "")
      match gitTempDir with
      | some _ =>
        { crashed := true, exitCode := none, buildAttempts := [],
          publishAttempts := [], overallPublishSuccess := true }
      | none =>
        let (bs, ps, ok) := publishLoop env isAgg aggDir passedDirs
        { crashed := false, exitCode := if ok then none else some 1,
          buildAttempts := bs, publishAttempts := ps, overallPublishSuccess := ok }

/-! ## Claim theorems -/

/-- C6: for every version whose release numbers are X.Y.Z, bump_version
maps major to (X+1).0.0.dev1, minor to X.(Y+1).0.dev1, patch on a dev
version to the same release with the dev counter incremented, patch on a
non-dev version to X.Y.(Z+1).dev1, and finalize strips the dev marker on
a dev version and fails on a non-dev version. -/
theorem C6_bump_version_arithmetic :
    ∀ (x y z n : Nat) (d : Option Nat),
      bump_version ⟨x, y, z, d⟩ "major" = .ok (toString (x + 1) ++ ".0.0.dev1")
      ∧ bump_version ⟨x, y, z, d⟩ "minor" =
          .ok (toString x ++ "." ++ toString (y + 1) ++ ".0.dev1")
      ∧ bump_version ⟨x, y, z, some n⟩ "patch" =
          .ok (toString x ++ "." ++ toString y ++ "." ++ toString z ++ ".dev" ++ toString (n + 1))
      ∧ bump_version ⟨x, y, z, none⟩ "patch" =
          .ok (toString x ++ "." ++ toString y ++ "." ++ toString (z + 1) ++ ".dev1")
      ∧ bump_version ⟨x, y, z, some n⟩ "finalize" =
          .ok (toString x ++ "." ++ toString y ++ "." ++ toString z)
      ∧ bump_version ⟨x, y, z, none⟩ "finalize" =
          .error "Current version is already final; nothing to finalize." := by
  intro x y z n d
  exact ⟨rfl, rfl, rfl, rfl, rfl, rfl⟩

/-- C7: the aggregator classifier answers true exactly when package-mode
is the boolean false or a string equal to "false" case-insensitively, and
false for every other value including an absent key; the build_ops copy
computes the same result, and both are pure functions of the parsed
document. -/
theorem C7_aggregator_classifier :
    ∀ doc : Toml,
      ((check_if_aggregator_test doc).1 = true ↔
        (List.lookup "package-mode"
            (tableD (List.lookup "poetry" (tableD (List.lookup "tool" (tableD (some doc)))))) =
          some (.bool false)
        ∨ ∃ s, List.lookup "package-mode"
            (tableD (List.lookup "poetry" (tableD (List.lookup "tool" (tableD (some doc)))))) =
          some (.str s) ∧ pyLower s = "false"))
      ∧ check_if_aggregator_build doc = check_if_aggregator_test doc := by
  intro doc
  refine ⟨?_, rfl⟩
  unfold check_if_aggregator_test
  cases h : List.lookup "package-mode"
      (tableD (List.lookup "poetry" (tableD (List.lookup "tool" (tableD (some doc)))))) with
  | none => simp [h]
  | some v =>
    cases v with
    | str s => simp [h]
    | bool b => cases b <;> simp [h]
    | int n => simp [h]
    | table t => simp [h]
    | arr l => simp [h]

/-- C10: the aggregator branch and the non-aggregator branch of the
each-mode test pipeline compute exactly the same result record on every
input, so run_tests_with_mode in mode "each" does not depend on the
classification of the primary manifest. -/
theorem C10_each_mode_branches_equal :
    ∀ (env : TestEnv) (primary : String) (cleanup : Bool),
      eachAggregatorBranch env primary cleanup = eachNonAggregatorBranch env primary cleanup := by
  intro env primary cleanup
  rfl

/-- Clone invocations of the group loop: one per key, at the destination
derived from the branch. -/
theorem testGitGroups_calls (env : TestEnv) (gitDeps : List (String × Toml))
    (root : String) (keys : List (String × String)) :
    (testGitGroups env gitDeps root keys).2.2 =
      keys.map (fun k => (k.1, k.2, joinPath root (pyReplace k.2 "/" "-" ++ "_clone"))) := by
  induction keys with
  | nil => rfl
  | cons k ks ih =>
    obtain ⟨u, b⟩ := k
    rcases hE : testGitGroups env gitDeps root ks with ⟨restOk, restDs, restCalls⟩
    rw [hE] at ih
    simp only [testGitGroups, hE]
    by_cases h : env.cloneRc u b != 0 <;> simp [h] <;> exact ih

/-- Folding step of groupKeys preserves absence of duplicates. -/
theorem groupKeys_foldl_nodup (gitDeps : List (String × Toml))
    (acc : List (String × String)) (hacc : acc.Nodup) :
    (gitDeps.foldl
      (fun acc d => if acc.contains (gitDepKey d.2) then acc else acc ++ [gitDepKey d.2])
      acc).Nodup := by
  induction gitDeps generalizing acc with
  | nil => exact hacc
  | cons d ds ih =>
    simp only [List.foldl_cons]
    by_cases h : acc.contains (gitDepKey d.2)
    · rw [if_pos h]; exact ih acc hacc
    · rw [if_neg h]
      refine ih _ ?_
      have hmem : gitDepKey d.2 ∉ acc := by
        simpa using h
      simp [List.nodup_append, hacc, hmem]

/-- Membership in the folded key list is membership in the accumulator or
among the keys of the dependencies. -/
theorem groupKeys_foldl_mem (gitDeps : List (String × Toml))
    (acc : List (String × String)) (k : String × String) :
    (k ∈ gitDeps.foldl
        (fun acc d => if acc.contains (gitDepKey d.2) then acc else acc ++ [gitDepKey d.2])
        acc) ↔ k ∈ acc ∨ k ∈ gitDeps.map (fun d => gitDepKey d.2) := by
  induction gitDeps generalizing acc with
  | nil => simp
  | cons d ds ih =>
    simp only [List.foldl_cons, List.map_cons, List.mem_cons]
    by_cases h : acc.contains (gitDepKey d.2)
    · rw [if_pos h, ih]
      have hmem : gitDepKey d.2 ∈ acc := by simpa using h
      constructor
      · rintro (ha | hd)
        · exact Or.inl ha
        · exact Or.inr (Or.inr hd)
      · rintro (ha | he | hd)
        · exact Or.inl ha
        · exact Or.inl (he ▸ hmem)
        · exact Or.inr hd
    · rw [if_neg h, ih]
      simp only [List.mem_append, List.mem_singleton]
      tauto

/-- C5: the dependency walker performs exactly one clone per distinct
(git_url, branch) group, in first-occurrence order, into a destination
named from the branch with slashes replaced by dashes; the group keys are
exactly the distinct keys of the Git dependencies; and two dependencies
sharing (url, branch) but differing in subdirectory trigger exactly one
clone. -/
theorem C5_one_clone_per_group :
    ∀ (env : TestEnv) (gitDeps : List (String × Toml)) (cleanup : Bool),
      (test_git_deps env gitDeps cleanup).cloneCalls =
        (groupKeys gitDeps).map
          (fun k => (k.1, k.2, joinPath env.tmpRoot (pyReplace k.2 "/" "-" ++ "_clone")))
      ∧ (groupKeys gitDeps).Nodup
      ∧ (∀ k, k ∈ groupKeys gitDeps ↔ k ∈ gitDeps.map (fun d => gitDepKey d.2))
      ∧ (test_git_deps env
          [("depa", .table [("git", .str "https://github.com/u/r.git"),
                            ("branch", .str "main"), ("subdirectory", .str "pkgs/a")]),
           ("depb", .table [("git", .str "https://github.com/u/r.git"),
                            ("branch", .str "main"), ("subdirectory", .str "pkgs/b")])]
          cleanup).cloneCalls.length = 1 := by
  intro env gitDeps cleanup
  have hcalls : ∀ (l : List (String × Toml)),
      (test_git_deps env l cleanup).cloneCalls =
        (groupKeys l).map
          (fun k => (k.1, k.2, joinPath env.tmpRoot (pyReplace k.2 "/" "-" ++ "_clone"))) := by
    intro l
    unfold test_git_deps
    by_cases h : (groupKeys l).isEmpty
    · rw [if_pos h]
      rw [List.isEmpty_iff] at h
      simp [h]
    · rw [if_neg h]
      rcases hE : testGitGroups env l env.tmpRoot (groupKeys l) with ⟨ok, ds, calls⟩
      have := testGitGroups_calls env l env.tmpRoot (groupKeys l)
      rw [hE] at this
      simpa using this
  refine ⟨hcalls gitDeps, groupKeys_foldl_nodup gitDeps [] List.nodup_nil,
    fun k => ?_, ?_⟩
  · have := groupKeys_foldl_mem gitDeps [] k
    simpa [groupKeys] using this
  · rw [hcalls]
    rfl

/-- The dependency loop is the entrywise map of `processEntry` together
with the disjunction of the per-entry update flags. -/
theorem processDeps_eq (net : NetEnv) (extras : List (String × Toml))
    (deps : List (String × Toml)) :
    processDeps net extras deps =
      (deps.map (fun p => (p.1, (processEntry net extras p.1 p.2).1)),
       deps.any (fun p => (processEntry net extras p.1 p.2).2)) := by
  induction deps with
  | nil => rfl
  | cons p rest ih =>
    obtain ⟨depName, details⟩ := p
    simp only [processDeps, ih, List.map_cons, List.any_cons]

/-- Association-list lookup through an entrywise value map. -/
theorem lookup_map_values (g : String → Toml → Toml) (name : String) :
    ∀ deps : List (String × Toml),
      List.lookup name (deps.map (fun p => (p.1, g p.1 p.2))) =
        (List.lookup name deps).map (g name) := by
  intro deps
  induction deps with
  | nil => rfl
  | cons p rest ih =>
    obtain ⟨k, v⟩ := p
    by_cases h : name == k
    · have hk : name = k := by simpa using h
      simp [List.lookup, h, hk]
    · simp [List.lookup, h, ih]

/-- A successful lookup exhibits a member of the list. -/
theorem lookup_mem {name : String} {v : Toml} :
    ∀ {deps : List (String × Toml)}, List.lookup name deps = some v → (name, v) ∈ deps := by
  intro deps
  induction deps with
  | nil => intro h; cases h
  | cons p rest ih =>
    obtain ⟨k, w⟩ := p
    intro h
    by_cases hk : name == k
    · have hk2 : name = k := by simpa using hk
      simp only [List.lookup, hk, if_pos] at h
      cases h
      simp [hk2]
    · simp only [List.lookup, hk] at h
      right
      exact ih h

/-- Lookup after the in-place replacement branch of dict assignment. -/
theorem lookup_map_replace (k : String) (v : Toml) :
    ∀ t : List (String × Toml), t.any (·.1 == k) = true →
      List.lookup k (t.map (fun p => if p.1 == k then (k, v) else p)) = some v := by
  intro t
  induction t with
  | nil => intro h; simp at h
  | cons p rest ih =>
    obtain ⟨k1, v1⟩ := p
    intro h
    simp only [List.any_cons] at h
    simp only [List.map_cons]
    cases hb : (k1 == k) with
    | true =>
      have hk1 : k1 = k := by simpa using hb
      subst hk1
      simp [List.lookup]
    | false =>
      rw [hb] at h
      simp only [Bool.false_or] at h
      have hne : k1 ≠ k := by simpa using hb
      have hk : (k == k1) = false := by simpa using Ne.symm hne
      rw [if_neg (by simp [hb])]
      simp only [List.lookup, hk]
      exact ih h

/-- Lookup after the append branch of dict assignment. -/
theorem lookup_append_new (k : String) (v : Toml) :
    ∀ t : List (String × Toml), t.any (·.1 == k) = false →
      List.lookup k (t ++ [(k, v)]) = some v := by
  intro t
  induction t with
  | nil => intro _; simp [List.lookup]
  | cons p rest ih =>
    obtain ⟨k1, v1⟩ := p
    intro h
    simp only [List.any_cons, Bool.or_eq_false_iff] at h
    have hne : k1 ≠ k := by simpa using h.1
    have hk : (k == k1) = false := by simpa using Ne.symm hne
    simp only [List.cons_append, List.lookup, hk]
    exact ih h.2

/-- Dict assignment makes the assigned key read back the assigned value. -/
theorem lookup_tableSet_self (t : List (String × Toml)) (k : String) (v : Toml) :
    List.lookup k (tableSet t k v) = some v := by
  unfold tableSet
  by_cases h : t.any (·.1 == k)
  · rw [if_pos h]
    exact lookup_map_replace k v t h
  · rw [if_neg h]
    rw [Bool.not_eq_true] at h
    exact lookup_append_new k v t h

/-- Replacing the poetry table rewrites the navigation to it. -/
theorem poetryTable_setPoetry (doc : Toml) (tp np : List (String × Toml))
    (h : poetryTable doc = some tp) :
    poetryTable (setPoetry doc np) = some np := by
  cases doc with
  | table dt =>
    simp only [poetryTable] at h
    cases htool : List.lookup "tool" dt with
    | none => rw [htool] at h; cases h
    | some tv =>
      rw [htool] at h
      cases tv with
      | table tt =>
        simp only [setPoetry, htool, poetryTable, lookup_tableSet_self]
      | str s => cases h
      | bool b => cases h
      | int n => cases h
      | arr l => cases h
  | str s => cases h
  | bool b => cases h
  | int n => cases h
  | arr l => cases h

/-- Dependencies table of the document after the poetry table has been
rewritten with a new dependencies value. -/
theorem depsTableOf_after_update (doc : Toml) (tp tp1 : List (String × Toml))
    (newDeps : List (String × Toml)) (h : poetryTable doc = some tp) :
    depsTableOf (setPoetry doc (tableSet tp1 "dependencies" (.table newDeps))) = newDeps := by
  unfold depsTableOf
  rw [poetryTable_setPoetry doc tp _ h]
  show tableD (List.lookup "dependencies" (tableSet tp1 "dependencies" (.table newDeps))) = newDeps
  rw [lookup_tableSet_self]
  rfl

/-- An entry that is not a table with a git key is never rewritten. -/
theorem processEntry_flag_false (net : NetEnv) (extras : List (String × Toml))
    (n : String) (details : Toml)
    (h : (match details with
          | Toml.table dt => (List.lookup "git" dt).isSome
          | _ => false) = false) :
    (processEntry net extras n details).2 = false := by
  cases details with
  | table dt =>
    have h2 : (List.lookup "git" dt).isSome = false := h
    have hg : List.lookup "git" dt = none := by
      cases hg : List.lookup "git" dt with
      | none => rfl
      | some v => rw [hg] at h2; simp at h2
    simp [processEntry, hg]
  | str s => rfl
  | bool b => rfl
  | int n => rfl
  | arr l => rfl

/-- C9: rewriting a manifest without Git-sourced dependency entries is a
no-op: the document handed to the serializer is the parsed document
itself, so the persisted dependencies table is unchanged and no extras
section is created. -/
theorem C9_no_git_rewrite_noop :
    ∀ (env : FileEnv) (net : NetEnv) (path : String) (doc : Toml) (tp : List (String × Toml)),
      env.isFile path = true →
      env.readToml path = some doc →
      poetryTable doc = some tp →
      tp.isEmpty = false →
      extract_git_dependencies doc = [] →
      update_pyproject_with_versions env net path = some doc := by
  intro env net path doc tp hf hr hp he hg
  have hdeps : depsTableOf doc = tableD (List.lookup "dependencies" tp) := by
    unfold depsTableOf
    rw [hp]
  have hpt : ∀ p ∈ tableD (List.lookup "dependencies" tp),
      (match p.2 with
       | Toml.table dt => (List.lookup "git" dt).isSome
       | _ => false) = false := by
    intro p hpmem
    have hfilter : (depsTableOf doc).filter
        (fun p => match p.2 with
                  | Toml.table dt => (List.lookup "git" dt).isSome
                  | _ => false) = [] := hg
    have := List.filter_eq_nil_iff.mp (hdeps ▸ hfilter) p hpmem
    simpa using this
  have hany : ((tableD (List.lookup "dependencies" tp)).any
      (fun p => (processEntry net (tableD (List.lookup "extras" tp)) p.1 p.2).2)) = false := by
    rw [List.any_eq_false]
    intro p hpmem
    rw [processEntry_flag_false net _ p.1 p.2 (hpt p hpmem)]
    simp
  simp only [update_pyproject_with_versions, hf, hr, hp, he, processDeps_eq, hany,
    Bool.not_true, Bool.not_false, Bool.false_eq_true, Bool.true_eq_false, if_false, if_true,
    ite_true, ite_false]

/-- Manifest with a single registry dependency and no Git dependency. -/
def sampleNoGitDoc : Toml :=
  .table [("tool", .table [("poetry", .table
    [("name", .str "pkg"), ("version", .str "0.1.0"),
     ("dependencies", .table [("requests", .str "^2.31")])])])]

/-- Filesystem oracle serving `sampleNoGitDoc` everywhere. -/
def sampleNoGitEnv : FileEnv :=
  ⟨fun _ => true, fun _ => some sampleNoGitDoc, fun _ => true⟩

/-- Network oracle on which every request fails. -/
def sampleNetDown : NetEnv :=
  ⟨fun _ => none, fun _ => none⟩

/-- Witness for C9 at a concrete manifest. -/
theorem C9_no_git_rewrite_noop_witness :
    update_pyproject_with_versions sampleNoGitEnv sampleNetDown "/p/pyproject.toml" =
      some sampleNoGitDoc :=
  C9_no_git_rewrite_noop sampleNoGitEnv sampleNetDown "/p/pyproject.toml" sampleNoGitDoc
    [("name", .str "pkg"), ("version", .str "0.1.0"),
     ("dependencies", .table [("requests", .str "^2.31")])]
    rfl rfl rfl rfl rfl

/-- An entry the loop did not rewrite is returned unchanged. -/
theorem processEntry_fst_of_flag_false (net : NetEnv) (extras : List (String × Toml))
    (n : String) (d : Toml) (h : (processEntry net extras n d).2 = false) :
    (processEntry net extras n d).1 = d := by
  cases d with
  | table dt =>
    cases hl : List.lookup "git" dt with
    | none => simp [processEntry, hl]
    | some g =>
      cases g with
      | str url =>
        cases hfetch : fetch_remote_pyproject_version net url
            (strFieldD dt "branch" "main") (strFieldD dt "subdirectory" "") with
        | none => simp [processEntry, hl, hfetch]
        | some r =>
          by_cases hr : r == ""
          · simp [processEntry, hl, hfetch, hr]
          · exfalso
            simp [processEntry, hl, hfetch, hr] at h
      | bool b => simp [processEntry, hl]
      | int m => simp [processEntry, hl]
      | table t => simp [processEntry, hl]
      | arr l => simp [processEntry, hl]
  | str s => rfl
  | bool b => rfl
  | int m => rfl
  | arr l => rfl

/-- Looked-up entry of the rewritten manifest: the update operation maps
every dependency entry through `processEntry` (returning the parsed
document unchanged when nothing was rewritten). -/
theorem update_lookup_processed (env : FileEnv) (net : NetEnv) (path : String)
    (doc : Toml) (tp : List (String × Toml))
    (hf : env.isFile path = true) (hr : env.readToml path = some doc)
    (hp : poetryTable doc = some tp) (he : tp.isEmpty = false) (name : String) :
    ∃ doc', update_pyproject_with_versions env net path = some doc' ∧
      List.lookup name (depsTableOf doc') =
        (List.lookup name (depsTableOf doc)).map
          (fun v => (processEntry net (tableD (List.lookup "extras" tp)) name v).1) := by
  have hdeps : depsTableOf doc = tableD (List.lookup "dependencies" tp) := by
    unfold depsTableOf
    rw [hp]
  cases hAny : ((tableD (List.lookup "dependencies" tp)).any
      (fun p => (processEntry net (tableD (List.lookup "extras" tp)) p.1 p.2).2)) with
  | false =>
    refine ⟨doc, ?_, ?_⟩
    · simp only [update_pyproject_with_versions, hf, hr, hp, he, processDeps_eq, hAny,
        Bool.not_true, Bool.not_false, Bool.false_eq_true, Bool.true_eq_false,
        if_false, if_true, ite_true, ite_false]
    · cases hl : List.lookup name (depsTableOf doc) with
      | none => rfl
      | some v =>
        have hmem : (name, v) ∈ depsTableOf doc := lookup_mem hl
        have hflag := (List.any_eq_false.mp hAny) (name, v) (hdeps ▸ hmem)
        have hflag2 : (processEntry net (tableD (List.lookup "extras" tp)) name v).2 = false := by
          simpa using hflag
        simp [processEntry_fst_of_flag_false net _ name v hflag2]
  | true =>
    refine ⟨setPoetry doc
      (tableSet
        (if (!(tableD (List.lookup "extras" tp)).isEmpty) = true then
          tableSet tp "extras"
            (.table ((tableD (List.lookup "extras" tp)).map
              (fun p => (p.1, filterExtra
                ((tableD (List.lookup "dependencies" tp)).map
                  (fun q => (q.1, (processEntry net (tableD (List.lookup "extras" tp)) q.1 q.2).1)))
                p.2))))
        else tp)
        "dependencies"
        (.table ((tableD (List.lookup "dependencies" tp)).map
          (fun q => (q.1, (processEntry net (tableD (List.lookup "extras" tp)) q.1 q.2).1))))),
      ?_, ?_⟩
    · simp only [update_pyproject_with_versions, hf, hr, hp, he, processDeps_eq, hAny,
        Bool.not_true, Bool.not_false, Bool.false_eq_true, Bool.true_eq_false,
        if_false, if_true, ite_true, ite_false]
    · rw [depsTableOf_after_update doc tp _ _ hp, hdeps]
      exact lookup_map_values
        (fun a b => (processEntry net (tableD (List.lookup "extras" tp)) a b).1) name
        (tableD (List.lookup "dependencies" tp))

/-- C4: the remote version fetch returns none (never raises) on a
non-GitHub host, on any HTTP failure, on an unparsable remote document,
and on a missing version field; and a dependency for which the fetch
returned none keeps its entry unchanged in the rewritten manifest, so its
git, branch and subdirectory fields are untouched and no version field is
added. -/
theorem C4_fetch_failures_yield_none :
    ∀ (net : NetEnv) (git_url branch subdirectory : String),
      (pyContains git_url "github.com" = false →
        fetch_remote_pyproject_version net git_url branch subdirectory = none)
      ∧ ((∀ u, net.httpGet u = none) →
        fetch_remote_pyproject_version net git_url branch subdirectory = none)
      ∧ ((∀ s, net.parseToml s = none) →
        fetch_remote_pyproject_version net git_url branch subdirectory = none)
      ∧ ((∀ s d, net.parseToml s = some d →
            List.lookup "version" (tableD (List.lookup "poetry"
              (tableD (List.lookup "tool" (tableD (some d)))))) = none) →
        fetch_remote_pyproject_version net git_url branch subdirectory = none)
      ∧ (∀ (env : FileEnv) (path : String) (doc : Toml) (tp dt : List (String × Toml))
            (name : String),
          env.isFile path = true →
          env.readToml path = some doc →
          poetryTable doc = some tp →
          tp.isEmpty = false →
          List.lookup name (depsTableOf doc) = some (.table dt) →
          List.lookup "git" dt = some (.str git_url) →
          fetch_remote_pyproject_version net git_url (strFieldD dt "branch" "main")
            (strFieldD dt "subdirectory" "") = none →
          ∃ doc', update_pyproject_with_versions env net path = some doc'
            ∧ List.lookup name (depsTableOf doc') = some (.table dt)) := by
  intro net git_url branch subdirectory
  refine ⟨?_, ?_, ?_, ?_, ?_⟩
  · intro h
    simp [fetch_remote_pyproject_version, h]
  · intro h
    unfold fetch_remote_pyproject_version
    by_cases hc : pyContains git_url "github.com"
    · simp only [hc, Bool.not_true, Bool.false_eq_true, if_false]
      rw [h]
    · simp [hc]
  · intro h
    unfold fetch_remote_pyproject_version
    by_cases hc : pyContains git_url "github.com"
    · simp only [hc, Bool.not_true, Bool.false_eq_true, if_false]
      cases net.httpGet _ with
      | none => rfl
      | some text => simp [h]
    · simp [hc]
  · intro h
    unfold fetch_remote_pyproject_version
    by_cases hc : pyContains git_url "github.com"
    · simp only [hc, Bool.not_true, Bool.false_eq_true, if_false]
      cases net.httpGet _ with
      | none => rfl
      | some text =>
        cases hparse : net.parseToml text with
        | none => simp [hparse]
        | some d => simp [hparse, h text d hparse]
    · simp [hc]
  · intro env path doc tp dt name hf hr hp he hl hgit hfetch
    obtain ⟨doc', hupd, hlook⟩ := update_lookup_processed env net path doc tp hf hr hp he name
    refine ⟨doc', hupd, ?_⟩
    rw [hlook, hl]
    simp [processEntry, hgit, hfetch]

/-- Network oracle whose responses never parse. -/
def sampleNetNoParse : NetEnv :=
  ⟨fun _ => some "not toml", fun _ => none⟩

/-- Network oracle whose remote documents carry no version field. -/
def sampleNetNoVersion : NetEnv :=
  ⟨fun _ => some "stub", fun _ => some (.table [])⟩

/-- Manifest with one Git dependency hosted outside GitHub. -/
def sampleGitlabDoc : Toml :=
  .table [("tool", .table [("poetry", .table
    [("name", .str "agg"), ("version", .str "0.1.0"),
     ("dependencies", .table
       [("mydep", .table
         [("git", .str "https://gitlab.example/u/r.git"),
          ("branch", .str "dev"), ("subdirectory", .str "pkgs/a")])])])])]

/-- Filesystem oracle serving `sampleGitlabDoc`. -/
def sampleGitlabEnv : FileEnv :=
  ⟨fun _ => true, fun _ => some sampleGitlabDoc, fun _ => true⟩

/-- Witness for C4: every failure mode yields none on concrete inputs, and
the non-GitHub dependency keeps its exact entry through a rewrite. -/
theorem C4_fetch_failures_yield_none_witness :
    fetch_remote_pyproject_version sampleNetDown "https://gitlab.example/u/r.git" "main" "" = none
    ∧ fetch_remote_pyproject_version sampleNetDown "https://github.com/u/r.git" "main" "" = none
    ∧ fetch_remote_pyproject_version sampleNetNoParse "https://github.com/u/r.git" "main" "" = none
    ∧ fetch_remote_pyproject_version sampleNetNoVersion "https://github.com/u/r.git" "main" "" = none
    ∧ (∃ doc', update_pyproject_with_versions sampleGitlabEnv sampleNetDown "/m/pyproject.toml" =
          some doc'
        ∧ List.lookup "mydep" (depsTableOf doc') = some (.table
            [("git", .str "https://gitlab.example/u/r.git"),
             ("branch", .str "dev"), ("subdirectory", .str "pkgs/a")])) := by
  refine ⟨?_, ?_, ?_, ?_, ?_⟩
  · exact (C4_fetch_failures_yield_none sampleNetDown "https://gitlab.example/u/r.git"
      "main" "").1 rfl
  · exact (C4_fetch_failures_yield_none sampleNetDown "https://github.com/u/r.git"
      "main" "").2.1 (fun _ => rfl)
  · exact (C4_fetch_failures_yield_none sampleNetNoParse "https://github.com/u/r.git"
      "main" "").2.2.1 (fun _ => rfl)
  · exact (C4_fetch_failures_yield_none sampleNetNoVersion "https://github.com/u/r.git"
      "main" "").2.2.2.1 (by intro s d hd; cases hd; rfl)
  · exact (C4_fetch_failures_yield_none sampleNetDown "https://gitlab.example/u/r.git"
      "main" "").2.2.2.2 sampleGitlabEnv "/m/pyproject.toml" sampleGitlabDoc _ _ "mydep"
      rfl rfl rfl rfl rfl rfl rfl

/-- Inline table built by the rewrite for a fetched version (lines 131-143
of soliloquy/ops/remote_ops.py): the caret constraint, the optional flag
when originally optional, and the preserved git, branch and subdirectory
keys. -/
def newInlineTable (rv gu : String) (opt : Bool) (ob os : Option Toml) :
    List (String × Toml) :=
  [("version", .str ("^" ++ rv))]
  ++ (if opt then [("optional", .bool true)] else [])
  ++ [("git", .str gu)]
  ++ (match ob with | some b => [("branch", b)] | none => [])
  ++ (match os with | some s => [("subdirectory", s)] | none => [])

/-- A successful fetch rewrites the entry to the new inline table. -/
theorem processEntry_success (net : NetEnv) (extras : List (String × Toml))
    (name git_url remoteVer : String) (dt : List (String × Toml))
    (hgit : List.lookup "git" dt = some (.str git_url))
    (hfetch : fetch_remote_pyproject_version net git_url (strFieldD dt "branch" "main")
        (strFieldD dt "subdirectory" "") = some remoteVer)
    (hne : (remoteVer == "") = false) :
    processEntry net extras name (.table dt) =
      (.table (newInlineTable remoteVer git_url
        (truthy ((List.lookup "optional" dt).getD (.bool false)) || dep_in_extras extras name)
        (List.lookup "branch" dt) (List.lookup "subdirectory" dt)), true) := by
  simp [processEntry, hgit, hfetch, hne, newInlineTable]

/-- Field lookups of the new inline table. -/
theorem newInlineTable_lookups (rv gu : String) (opt : Bool) (ob os : Option Toml) :
    List.lookup "version" (newInlineTable rv gu opt ob os) = some (.str ("^" ++ rv))
    ∧ List.lookup "optional" (newInlineTable rv gu opt ob os) =
        (if opt then some (.bool true) else none)
    ∧ List.lookup "git" (newInlineTable rv gu opt ob os) = some (.str gu)
    ∧ List.lookup "branch" (newInlineTable rv gu opt ob os) = ob
    ∧ List.lookup "subdirectory" (newInlineTable rv gu opt ob os) = os
    ∧ List.lookup "path" (newInlineTable rv gu opt ob os) = none := by
  cases opt <;> cases ob <;> cases os <;> exact ⟨rfl, rfl, rfl, rfl, rfl, rfl⟩

/-- C1 counterexample: on a manifest with one GitHub dependency and a
remote version 1.2.3, the rewritten entry still contains the git, branch
and subdirectory keys, refuting the claim that those keys are dropped. -/
def sampleGithubDoc : Toml :=
  .table [("tool", .table [("poetry", .table
    [("name", .str "agg"), ("version", .str "0.1.0"),
     ("dependencies", .table
       [("mydep", .table
         [("git", .str "https://github.com/u/r.git"),
          ("branch", .str "main"), ("subdirectory", .str "pkgs/a")])])])])]

/-- Filesystem oracle serving `sampleGithubDoc`. -/
def sampleGithubEnv : FileEnv :=
  ⟨fun _ => true, fun _ => some sampleGithubDoc, fun _ => true⟩

/-- Network oracle whose remote manifests declare version 1.2.3. -/
def sampleNetV123 : NetEnv :=
  ⟨fun _ => some "stub",
   fun _ => some (.table [("tool", .table [("poetry", .table [("version", .str "1.2.3")])])])⟩

/-- Counterexample for C1 as stated: the rewritten entry of `mydep` keeps
its git, branch and subdirectory keys next to the new caret constraint. -/
theorem C1_rewrite_drops_keys_counterexample :
    (update_pyproject_with_versions sampleGithubEnv sampleNetV123 "/m/pyproject.toml").bind
      (fun d => List.lookup "mydep" (depsTableOf d)) =
      some (.table [("version", .str "^1.2.3"),
                    ("git", .str "https://github.com/u/r.git"),
                    ("branch", .str "main"),
                    ("subdirectory", .str "pkgs/a")]) := rfl

/-- C1 amended: for every Git dependency whose version fetch succeeds, the
rewrite replaces the entry by an inline table whose version is the caret
constraint on the fetched version, whose optional field is present (true)
exactly when the dependency was originally optional, which carries no path
key, and which retains the git key and the original branch and
subdirectory keys. -/
theorem C1_rewrite_shape_amended :
    ∀ (env : FileEnv) (net : NetEnv) (path : String) (doc : Toml)
      (tp dt : List (String × Toml)) (name git_url remoteVer : String),
      env.isFile path = true →
      env.readToml path = some doc →
      poetryTable doc = some tp →
      tp.isEmpty = false →
      List.lookup name (depsTableOf doc) = some (.table dt) →
      List.lookup "git" dt = some (.str git_url) →
      fetch_remote_pyproject_version net git_url (strFieldD dt "branch" "main")
        (strFieldD dt "subdirectory" "") = some remoteVer →
      (remoteVer == "") = false →
      ∃ doc', update_pyproject_with_versions env net path = some doc'
        ∧ List.lookup name (depsTableOf doc') =
            some (.table (newInlineTable remoteVer git_url
              (truthy ((List.lookup "optional" dt).getD (.bool false))
                || dep_in_extras (tableD (List.lookup "extras" tp)) name)
              (List.lookup "branch" dt) (List.lookup "subdirectory" dt)))
        ∧ List.lookup "version" (newInlineTable remoteVer git_url
              (truthy ((List.lookup "optional" dt).getD (.bool false))
                || dep_in_extras (tableD (List.lookup "extras" tp)) name)
              (List.lookup "branch" dt) (List.lookup "subdirectory" dt)) =
            some (.str ("^" ++ remoteVer))
        ∧ List.lookup "optional" (newInlineTable remoteVer git_url
              (truthy ((List.lookup "optional" dt).getD (.bool false))
                || dep_in_extras (tableD (List.lookup "extras" tp)) name)
              (List.lookup "branch" dt) (List.lookup "subdirectory" dt)) =
            (if truthy ((List.lookup "optional" dt).getD (.bool false))
                || dep_in_extras (tableD (List.lookup "extras" tp)) name
             then some (.bool true) else none)
        ∧ List.lookup "git" (newInlineTable remoteVer git_url
              (truthy ((List.lookup "optional" dt).getD (.bool false))
                || dep_in_extras (tableD (List.lookup "extras" tp)) name)
              (List.lookup "branch" dt) (List.lookup "subdirectory" dt)) =
            some (.str git_url)
        ∧ List.lookup "branch" (newInlineTable remoteVer git_url
              (truthy ((List.lookup "optional" dt).getD (.bool false))
                || dep_in_extras (tableD (List.lookup "extras" tp)) name)
              (List.lookup "branch" dt) (List.lookup "subdirectory" dt)) =
            List.lookup "branch" dt
        ∧ List.lookup "subdirectory" (newInlineTable remoteVer git_url
              (truthy ((List.lookup "optional" dt).getD (.bool false))
                || dep_in_extras (tableD (List.lookup "extras" tp)) name)
              (List.lookup "branch" dt) (List.lookup "subdirectory" dt)) =
            List.lookup "subdirectory" dt
        ∧ List.lookup "path" (newInlineTable remoteVer git_url
              (truthy ((List.lookup "optional" dt).getD (.bool false))
                || dep_in_extras (tableD (List.lookup "extras" tp)) name)
              (List.lookup "branch" dt) (List.lookup "subdirectory" dt)) = none := by
  intro env net path doc tp dt name git_url remoteVer hf hr hp he hl hgit hfetch hne
  obtain ⟨doc', hupd, hlook⟩ := update_lookup_processed env net path doc tp hf hr hp he name
  obtain ⟨l1, l2, l3, l4, l5, l6⟩ := newInlineTable_lookups remoteVer git_url
    (truthy ((List.lookup "optional" dt).getD (.bool false))
      || dep_in_extras (tableD (List.lookup "extras" tp)) name)
    (List.lookup "branch" dt) (List.lookup "subdirectory" dt)
  refine ⟨doc', hupd, ?_, l1, l2, l3, l4, l5, l6⟩
  rw [hlook, hl]
  show some ((processEntry net (tableD (List.lookup "extras" tp)) name (Toml.table dt)).1) = _
  rw [processEntry_success net _ name git_url remoteVer dt hgit hfetch hne]

/-- Witness for C1 amended at the concrete GitHub manifest. -/
theorem C1_rewrite_shape_amended_witness :
    (update_pyproject_with_versions sampleGithubEnv sampleNetV123 "/m/pyproject.toml").bind
      (fun d => List.lookup "mydep" (depsTableOf d)) =
      some (.table (newInlineTable "1.2.3" "https://github.com/u/r.git" false
        (some (.str "main")) (some (.str "pkgs/a")))) := by
  obtain ⟨doc', hupd, hni, -, -, -, -, -, -⟩ :=
    C1_rewrite_shape_amended sampleGithubEnv sampleNetV123 "/m/pyproject.toml"
      sampleGithubDoc _ _ "mydep" "https://github.com/u/r.git" "1.2.3"
      rfl rfl rfl rfl rfl rfl rfl rfl
  rw [hupd]
  simpa using hni

/-- The path-dependency loop computes the conjunction of the per-item
outcomes and collects, in order, one result per item actually run. -/
theorem testPathDeps_eq (env : TestEnv) (base : String) (deps : List String) :
    testPathDeps env base deps =
      (deps.all (fun rel => env.dirExists (joinPath base rel)
          && (run_pytests env (joinPath base rel)).success),
       ((deps.map (joinPath base)).filter env.dirExists).map (run_pytests env)) := by
  induction deps with
  | nil => rfl
  | cons rel rest ih =>
    rcases hE : testPathDeps env base rest with ⟨restOk, restDs⟩
    rw [hE] at ih
    rw [Prod.mk.injEq] at ih
    obtain ⟨ihOk, ihDs⟩ := ih
    simp only [testPathDeps, hE, List.all_cons, List.map_cons, List.filter_cons]
    by_cases h : env.dirExists (joinPath base rel)
    · simp [h, ihOk, ihDs]
    · simp [h, ihOk, ihDs]

/-- The per-clone member loop computes the conjunction of the per-member
outcomes and collects, in order, one result per member actually run. -/
theorem testMembers_eq (env : TestEnv) (cloneDir : String) (ms : List (String × String)) :
    testMembers env cloneDir ms =
      (ms.all (fun m =>
          env.dirExists (joinParts cloneDir (pySplit m.2 "/"))
          && env.fileExists (joinPath (joinParts cloneDir (pySplit m.2 "/")) "pyproject.toml")
          && (run_pytests env (joinParts cloneDir (pySplit m.2 "/"))).success),
       ((ms.map (fun m => joinParts cloneDir (pySplit m.2 "/"))).filter
          (fun p => env.dirExists p && env.fileExists (joinPath p "pyproject.toml"))).map
         (run_pytests env)) := by
  induction ms with
  | nil => rfl
  | cons m rest ih =>
    obtain ⟨nm, subdir⟩ := m
    rcases hE : testMembers env cloneDir rest with ⟨restOk, restDs⟩
    rw [hE] at ih
    rw [Prod.mk.injEq] at ih
    obtain ⟨ihOk, ihDs⟩ := ih
    simp only [testMembers, hE, List.all_cons, List.map_cons, List.filter_cons]
    by_cases hd : env.dirExists (joinParts cloneDir (pySplit subdir "/"))
    · by_cases hf : env.fileExists
          (joinPath (joinParts cloneDir (pySplit subdir "/")) "pyproject.toml")
      · simp [hd, hf, ihOk, ihDs]
      · simp [hd, hf, ihOk, ihDs]
    · simp [hd, ihOk, ihDs]

/-- The group loop computes the conjunction of the per-group outcomes. -/
theorem testGitGroups_ok (env : TestEnv) (gitDeps : List (String × Toml)) (root : String)
    (keys : List (String × String)) :
    (testGitGroups env gitDeps root keys).1 =
      keys.all (fun k => (env.cloneRc k.1 k.2 == 0)
        && (testMembers env (joinPath root (pyReplace k.2 "/" "-" ++ "_clone"))
              (groupMembers gitDeps k)).1) := by
  induction keys with
  | nil => rfl
  | cons k ks ih =>
    obtain ⟨u, b⟩ := k
    rcases hE : testGitGroups env gitDeps root ks with ⟨restOk, restDs, restCalls⟩
    rw [hE] at ih
    have ihOk : restOk = ks.all (fun k => (env.cloneRc k.1 k.2 == 0)
        && (testMembers env (joinPath root (pyReplace k.2 "/" "-" ++ "_clone"))
              (groupMembers gitDeps k)).1) := ih
    rcases hM : testMembers env (joinPath root (pyReplace b "/" "-" ++ "_clone"))
        (groupMembers gitDeps (u, b)) with ⟨mOk, mDs⟩
    simp only [testGitGroups, hE, hM, List.all_cons, bne]
    cases hc : env.cloneRc u b == 0 with
    | false => simp [hc]
    | true => simp [hc, ihOk]

/-- The group loop collects, in clone order, the member results of the
groups whose clone succeeded. -/
theorem testGitGroups_details (env : TestEnv) (gitDeps : List (String × Toml)) (root : String)
    (keys : List (String × String)) :
    (testGitGroups env gitDeps root keys).2.1 =
      keys.flatMap (fun k =>
        if env.cloneRc k.1 k.2 == 0 then
          (testMembers env (joinPath root (pyReplace k.2 "/" "-" ++ "_clone"))
            (groupMembers gitDeps k)).2
        else []) := by
  induction keys with
  | nil => rfl
  | cons k ks ih =>
    obtain ⟨u, b⟩ := k
    rcases hE : testGitGroups env gitDeps root ks with ⟨restOk, restDs, restCalls⟩
    rw [hE] at ih
    have ihDs : restDs = ks.flatMap (fun k =>
        if env.cloneRc k.1 k.2 == 0 then
          (testMembers env (joinPath root (pyReplace k.2 "/" "-" ++ "_clone"))
            (groupMembers gitDeps k)).2
        else []) := ih
    rcases hM : testMembers env (joinPath root (pyReplace b "/" "-" ++ "_clone"))
        (groupMembers gitDeps (u, b)) with ⟨mOk, mDs⟩
    simp only [testGitGroups, hE, hM, List.flatMap_cons, bne]
    cases hc : env.cloneRc u b == 0 with
    | false => simp [hc, ihDs]
    | true => simp [hc, ihDs]

/-- A nonempty Git dependency list yields a nonempty group key list. -/
theorem groupKeys_isEmpty_eq (gitDeps : List (String × Toml)) :
    (groupKeys gitDeps).isEmpty = gitDeps.isEmpty := by
  cases gitDeps with
  | nil => rfl
  | cons d rest =>
    have hmem : gitDepKey d.2 ∈ groupKeys (d :: rest) := by
      have := (groupKeys_foldl_mem (d :: rest) [] (gitDepKey d.2)).mpr
        (Or.inr (by simp))
      simpa [groupKeys] using this
    cases hk : groupKeys (d :: rest) with
    | nil => rw [hk] at hmem; cases hmem
    | cons a l => rfl

/-- Shape of the each-mode branch: success is the conjunction of every
per-item outcome (unresolvable items count as failures), details collects
one result per item actually run, in order. -/
theorem eachAggregatorBranch_eq (env : TestEnv) (primary : String) (cleanup : Bool) :
    eachAggregatorBranch env primary cleanup =
      { success :=
          ((extract_path_dependencies (env.fs primary)).all (fun rel =>
            env.dirExists (joinPath (dirname primary) rel)
            && (run_pytests env (joinPath (dirname primary) rel)).success))
          && ((groupKeys (extract_git_dependencies (env.fs primary))).all (fun k =>
              (env.cloneRc k.1 k.2 == 0)
              && ((groupMembers (extract_git_dependencies (env.fs primary)) k).all (fun m =>
                  env.dirExists (joinParts (joinPath env.tmpRoot
                      (pyReplace k.2 "/" "-" ++ "_clone")) (pySplit m.2 "/"))
                  && env.fileExists (joinPath (joinParts (joinPath env.tmpRoot
                        (pyReplace k.2 "/" "-" ++ "_clone")) (pySplit m.2 "/")) "pyproject.toml")
                  && (run_pytests env (joinParts (joinPath env.tmpRoot
                        (pyReplace k.2 "/" "-" ++ "_clone")) (pySplit m.2 "/"))).success)))),
        details :=
          ((((extract_path_dependencies (env.fs primary)).map (joinPath (dirname primary))).filter
              env.dirExists).map (run_pytests env))
          ++ (groupKeys (extract_git_dependencies (env.fs primary))).flatMap (fun k =>
              if env.cloneRc k.1 k.2 == 0 then
                (((groupMembers (extract_git_dependencies (env.fs primary)) k).map (fun m =>
                    joinParts (joinPath env.tmpRoot (pyReplace k.2 "/" "-" ++ "_clone"))
                      (pySplit m.2 "/"))).filter
                  (fun p => env.dirExists p
                    && env.fileExists (joinPath p "pyproject.toml"))).map (run_pytests env)
              else []),
        gitTempDir :=
          if (extract_git_dependencies (env.fs primary)).isEmpty then none
          else if cleanup then none else some env.tmpRoot } := by
  unfold eachAggregatorBranch
  rcases hP : testPathDeps env (dirname primary)
      (extract_path_dependencies (env.fs primary)) with ⟨pOk, pDs⟩
  have hPe := testPathDeps_eq env (dirname primary) (extract_path_dependencies (env.fs primary))
  rw [hP, Prod.mk.injEq] at hPe
  obtain ⟨hPok, hPds⟩ := hPe
  by_cases hG : (extract_git_dependencies (env.fs primary)).isEmpty
  · have hnil : extract_git_dependencies (env.fs primary) = [] := by
      rw [List.isEmpty_iff] at hG
      exact hG
    simp [hP, hnil, hPok, hPds, groupKeys]
  · have hGf : (extract_git_dependencies (env.fs primary)).isEmpty = false := by
      cases hh : (extract_git_dependencies (env.fs primary)).isEmpty
      · rfl
      · exact absurd hh hG
    have hK : (groupKeys (extract_git_dependencies (env.fs primary))).isEmpty = false := by
      rw [groupKeys_isEmpty_eq]
      exact hGf
    rcases hTG : testGitGroups env (extract_git_dependencies (env.fs primary)) env.tmpRoot
        (groupKeys (extract_git_dependencies (env.fs primary))) with ⟨gOk, gDs, gCalls⟩
    have hOk := testGitGroups_ok env (extract_git_dependencies (env.fs primary)) env.tmpRoot
      (groupKeys (extract_git_dependencies (env.fs primary)))
    rw [hTG] at hOk
    have hDs := testGitGroups_details env (extract_git_dependencies (env.fs primary)) env.tmpRoot
      (groupKeys (extract_git_dependencies (env.fs primary)))
    rw [hTG] at hDs
    have hOk2 : gOk = _ := hOk
    have hDs2 : gDs = _ := hDs
    have hMfst : ∀ k : String × String,
        (testMembers env (joinPath env.tmpRoot (pyReplace k.2 "/" "-" ++ "_clone"))
          (groupMembers (extract_git_dependencies (env.fs primary)) k)).1 =
        (groupMembers (extract_git_dependencies (env.fs primary)) k).all (fun m =>
          env.dirExists (joinParts (joinPath env.tmpRoot
              (pyReplace k.2 "/" "-" ++ "_clone")) (pySplit m.2 "/"))
          && env.fileExists (joinPath (joinParts (joinPath env.tmpRoot
                (pyReplace k.2 "/" "-" ++ "_clone")) (pySplit m.2 "/")) "pyproject.toml")
          && (run_pytests env (joinParts (joinPath env.tmpRoot
                (pyReplace k.2 "/" "-" ++ "_clone")) (pySplit m.2 "/"))).success) := by
      intro k
      rw [testMembers_eq]
    have hMsnd : ∀ k : String × String,
        (testMembers env (joinPath env.tmpRoot (pyReplace k.2 "/" "-" ++ "_clone"))
          (groupMembers (extract_git_dependencies (env.fs primary)) k)).2 =
        (((groupMembers (extract_git_dependencies (env.fs primary)) k).map (fun m =>
            joinParts (joinPath env.tmpRoot (pyReplace k.2 "/" "-" ++ "_clone"))
              (pySplit m.2 "/"))).filter
          (fun p => env.dirExists p
            && env.fileExists (joinPath p "pyproject.toml"))).map (run_pytests env) := by
      intro k
      rw [testMembers_eq]
    simp only [hMfst] at hOk2
    simp only [hMsnd] at hDs2
    simp [hP, test_git_deps, hK, hTG, hGf, hPok, hPds, hOk2, hDs2]

/-- C2: in each-mode, run_tests_with_mode returns success equal to the
conjunction of all per-item outcomes (an unresolvable path or Git item
counts as a failure without stopping the remaining items) and details
holding one result per item actually run, in the order the items were
processed. -/
theorem C2_each_mode_partial_failure :
    ∀ (env : TestEnv) (findResult : Except String (List String)) (directory : Option String)
      (cleanup : Bool) (primary : String) (rest : List String),
      findResult = .ok (primary :: rest) →
      run_tests_with_mode env findResult directory "each" cleanup =
        { success :=
            ((extract_path_dependencies (env.fs primary)).all (fun rel =>
              env.dirExists (joinPath (dirname primary) rel)
              && (run_pytests env (joinPath (dirname primary) rel)).success))
            && ((groupKeys (extract_git_dependencies (env.fs primary))).all (fun k =>
                (env.cloneRc k.1 k.2 == 0)
                && ((groupMembers (extract_git_dependencies (env.fs primary)) k).all (fun m =>
                    env.dirExists (joinParts (joinPath env.tmpRoot
                        (pyReplace k.2 "/" "-" ++ "_clone")) (pySplit m.2 "/"))
                    && env.fileExists (joinPath (joinParts (joinPath env.tmpRoot
                          (pyReplace k.2 "/" "-" ++ "_clone")) (pySplit m.2 "/")) "pyproject.toml")
                    && (run_pytests env (joinParts (joinPath env.tmpRoot
                          (pyReplace k.2 "/" "-" ++ "_clone")) (pySplit m.2 "/"))).success)))),
          details :=
            ((((extract_path_dependencies (env.fs primary)).map
                (joinPath (dirname primary))).filter
                env.dirExists).map (run_pytests env))
            ++ (groupKeys (extract_git_dependencies (env.fs primary))).flatMap (fun k =>
                if env.cloneRc k.1 k.2 == 0 then
                  (((groupMembers (extract_git_dependencies (env.fs primary)) k).map (fun m =>
                      joinParts (joinPath env.tmpRoot (pyReplace k.2 "/" "-" ++ "_clone"))
                        (pySplit m.2 "/"))).filter
                    (fun p => env.dirExists p
                      && env.fileExists (joinPath p "pyproject.toml"))).map (run_pytests env)
                else []),
          gitTempDir :=
            if (extract_git_dependencies (env.fs primary)).isEmpty then none
            else if cleanup then none else some env.tmpRoot } := by
  intro env findResult directory cleanup primary rest hfind
  subst hfind
  have hred : run_tests_with_mode env (.ok (primary :: rest)) directory "each" cleanup =
      (if (check_if_aggregator_test (env.fs primary)).1 then
        eachAggregatorBranch env primary cleanup
      else eachNonAggregatorBranch env primary cleanup) := rfl
  rw [hred]
  cases hA : (check_if_aggregator_test (env.fs primary)).1 with
  | true =>
    rw [if_pos rfl]
    exact eachAggregatorBranch_eq env primary cleanup
  | false =>
    rw [if_neg (by simp)]
    exact eachAggregatorBranch_eq env primary cleanup

/-- Aggregator manifest with three path dependencies. -/
def sampleEachDoc : Toml :=
  .table [("tool", .table [("poetry", .table
    [("name", .str "mono"), ("package-mode", .bool false),
     ("dependencies", .table
       [("a", .table [("path", .str "a")]),
        ("b", .table [("path", .str "b")]),
        ("c", .table [("path", .str "c")])])])])]

/-- Test environment in which only the tests in /m/b fail. -/
def sampleEachEnv : TestEnv :=
  ⟨fun _ => sampleEachDoc, fun _ => true, fun _ => true,
   fun d => if d == "/m/b" then 1 else 0, fun _ _ => 0, "/tmp/mono_test_x"⟩

/-- Witness for C2: three work items with the second failing give overall
failure, three detail records in order, and success on items one and
three. -/
theorem C2_each_mode_partial_failure_witness :
    run_tests_with_mode sampleEachEnv (.ok ["/m/pyproject.toml"]) none "each" true =
      { success := false,
        details := [⟨true, 0, "/m/a"⟩, ⟨false, 1, "/m/b"⟩, ⟨true, 0, "/m/c"⟩],
        gitTempDir := none } := by
  have h := C2_each_mode_partial_failure sampleEachEnv (.ok ["/m/pyproject.toml"]) none true
    "/m/pyproject.toml" [] rfl
  exact h.trans (by rfl)

/-- Filesystem oracle serving an invalid manifest at /a and a valid one
at /b. -/
def bulkEnv : FileEnv :=
  ⟨fun _ => true,
   fun p => if p == "/a/pyproject.toml" then some (.table []) else some sampleNoGitDoc,
   fun _ => true⟩

/-- C3 evaluation: `remote_update_bulk` keeps processing after the first
file fails and returns the conjunction of the per-file outcomes — but as
a bare boolean, not the record with an overall_success field and a
results list that the claim describes and that `run_release`
(soliloquy/phases/release.py lines 56-60 and 122-127) subscripts; at
runtime that subscript raises TypeError because a bool is not
subscriptable. -/
theorem C3_bulk_bool_eval :
    remote_update_bulk bulkEnv sampleNetDown
      (.ok ["/a/pyproject.toml", "/b/pyproject.toml"]) none =
      (false, ["/a/pyproject.toml", "/b/pyproject.toml"]) := rfl

/-- Aggregator manifest for the release evaluation. -/
def sampleAggRelDoc : Toml :=
  .table [("tool", .table [("poetry", .table
    [("name", .str "mono"), ("package-mode", .bool false)])])]

/-- Release environment: absolute paths are already canonical, the build
in /m/b fails, publishing always succeeds. -/
def relEnvW : RelEnv :=
  ⟨fun s => s, fun d => if d == "/m/b" then 1 else 0, fun _ => 0, fun _ => sampleAggRelDoc⟩

/-- C8 evaluation: with a temporary Git clone directory present, the
each-mode release crashes at the remote-update step (remote_update_bulk
returns a bool that the code subscripts) before any build or publish; on
the reachable no-clone path, exactly the passing non-aggregator items are
built, the single build failure excludes only that item from publish, and
the remaining items are still attempted. -/
theorem C8_each_release_eval :
    run_release_each relEnvW [⟨true, 0, "/m/a"⟩] (some "/tmp/mono_test_x")
        ["/m/pyproject.toml"] =
      { crashed := true, exitCode := none, buildAttempts := [],
        publishAttempts := [], overallPublishSuccess := true }
    ∧ run_release_each relEnvW
        [⟨true, 0, "/m"⟩, ⟨true, 0, "/m/a"⟩, ⟨false, 1, "/m/x"⟩,
         ⟨true, 0, "/m/b"⟩, ⟨true, 0, "/m/c"⟩]
        none ["/m/pyproject.toml"] =
      { crashed := false, exitCode := some 1, buildAttempts := ["/m/a", "/m/b", "/m/c"],
        publishAttempts := ["/m/a", "/m/c"], overallPublishSuccess := false } :=
  ⟨rfl, rfl⟩

end Soliloquy
